/-
Verification of the xfeed relevance-scoring and reputation pipeline.

This development shallowly embeds the scoring core of the repository:
  - src/xfeed/filter.py   (response parsing, factor explanation, dissent
    bonus, exploration marking, threshold filter, sorting, batching)
  - src/xfeed/reputation.py (forgiving average, author stats, reputation
    boost, trusted-author query)

Conventions of the embedding:
  - Python ints are `Int`/`Nat`; SQLite scores are `Int`; Python floats that
    only ever hold exact decimal fractions (7.5, 1.5, 0.5, averages of
    integers) are `ℚ`.
  - Timestamps are rationals: days since an arbitrary epoch in the
    reputation module, hours since an arbitrary epoch in the exploration
    cache; `now` is passed explicitly where Python calls datetime.now().
  - Fallible code returns `Option`/`Except`; the per-batch `try/except`
    around the LLM call is an `Except String (List JDict)` per batch.
  - Python's stable `list.sort(key=..., reverse=True)` is rendered as
    `List.insertionSort` with the non-strict descending relation, which is
    the same (unique) stable descending sort.
  - Leading underscores of private Python helpers are dropped
    (`_build_explanation` becomes `build_explanation`, and so on).
-/

import Mathlib

/-! ## Basic utilities -/

/-- Lowercasing a string character by character; model of Python
`str.lower()` (ASCII-faithful). `String.toLower` itself is avoided because
its positional recursion does not reduce well in the kernel. -/
def lowerStr (s : String) : String := String.mk (s.data.map Char.toLower)

/-- Fuel-driven worker for `chunks`. -/
def chunksAux {α : Type} : Nat → Nat → List α → List (List α)
  | 0, _, _ => []
  | _, _, [] => []
  | fuel + 1, n, l => l.take n :: chunksAux fuel n (l.drop n)

/-- Partition a list into consecutive chunks of size `n`, as Python's
`for i in range(0, len(tweets), batch_size): batch = tweets[i:i+batch_size]`
(assumes `n ≥ 1`; Python raises `ValueError` for step 0). -/
def chunks {α : Type} (n : Nat) (l : List α) : List (List α) :=
  chunksAux l.length n l

/-! ## Data model (src/xfeed/models.py, scoring-relevant fields)

`Tweet` carries more presentation fields in the source (`has_media`, `url`,
`quoted_tweet`, engagement flags); only the fields the scoring pipeline
reads are embedded. -/

structure Tweet where
  id : String
  author : String
  author_handle : String
  content : String
  likes : Int := 0
  retweets : Int := 0
  replies : Int := 0
deriving DecidableEq

/-- `FilteredTweet` from models.py (the `link_summaries` enrichment field is
filled by a later, non-scoring stage and is omitted). -/
structure FilteredTweet where
  tweet : Tweet
  relevance_score : Int
  reason : String
  is_superdunk : Bool := false
deriving DecidableEq

/-- One duck-typed judgment dictionary as consumed by `filter_tweets`:
every field is optional, mirroring `score_data.get(key, default)`. -/
structure JDict where
  id : Option String := none
  score : Option Int := none
  reason : Option String := none
  superdunk : Option Bool := none
  factors : Option (List String) := none
  is_unknown_author : Option Bool := none
deriving DecidableEq

/-- Configuration keys read by the scoring core, with the defaults used by
`config.get(key, default)` in filter.py and reputation.py. -/
structure Config where
  relevance_threshold : Int := 7
  batch_size : Nat := 15
  exploration_rate : ℚ := 1/10
  exploration_min_quality : Int := 7
  exploration_cooldown_hours : ℚ := 24
  dissent_min_rigor : Int := 6
  dissent_bonus_cap : Int := 2
  reputation_minimum_samples : Nat := 5
  reputation_trusted_threshold : ℚ := 15/2
  reputation_boost_max : ℚ := 3/2
deriving DecidableEq

/-- The hard-coded defaults. -/
def defaultConfig : Config := {}

/-! ## Exploration cooldown cache (filter.py lines 14-15, 125-142)

The module-level global `_exploration_author_cache : dict[str, datetime]`
is an association list from author handle to last-seen time (hours). -/

/-- Lookup in the cache dictionary. -/
def cacheLookup (cache : List (String × ℚ)) (handle : String) : Option ℚ :=
  (cache.find? (fun e => e.1 = handle)).map (fun e => e.2)

/-- Embedding of `_is_author_in_cooldown`: false for never-seen handles,
otherwise true iff `now - last_seen < cooldown_hours`. -/
def is_author_in_cooldown (cache : List (String × ℚ)) (author_handle : String)
    (cooldown_hours : ℚ) (now : ℚ) : Bool :=
  match cacheLookup cache author_handle with
  | none => false
  | some last_seen => decide (now - last_seen < cooldown_hours)

/-- Embedding of `_mark_author_seen`: record `now` for the handle, then
prune every entry not strictly newer than `now - 48` hours. -/
def mark_author_seen (cache : List (String × ℚ)) (author_handle : String)
    (now : ℚ) : List (String × ℚ) :=
  let updated := (author_handle, now) :: cache.filter (fun e => decide (e.1 ≠ author_handle))
  updated.filter (fun e => decide (now - 48 < e.2))

/-! ## Factor explanation (filter.py `_build_explanation`, lines 145-165) -/

def boost_names : List String :=
  ["mechanism", "tradeoffs", "evidence", "uncertainty", "assumptions", "dissent_rigorous"]

def penalty_names : List String :=
  ["vague", "unsourced", "rhetorical", "overconfident"]

/-- Embedding of `_build_explanation`: recognized boost factors render as
`+tag`, penalties as `-tag`, unknown tags are dropped; with no recognized
factor the bare reason is returned. -/
def build_explanation (factors : List String) (base_reason : String) : String :=
  if factors = [] then base_reason
  else
    let boost_factors := (factors.filter (fun f => decide (f ∈ boost_names))).map
      (fun f => "+" ++ f)
    let penalty_factors := (factors.filter (fun f => decide (f ∈ penalty_names))).map
      (fun f => "-" ++ f)
    let factor_str := String.intercalate (", ") (boost_factors ++ penalty_factors)
    if factor_str = "" then base_reason
    else base_reason ++ " [" ++ factor_str ++ "]"

/-! ## Scoring post-processing (filter.py `filter_tweets`, lines 257-294) -/

/-- The rigor set of filter.py line 269. -/
def rigor_factor_names : List String :=
  ["mechanism", "evidence", "tradeoffs", "uncertainty", "assumptions"]

/-- `rigor_count = len([f for f in factors if f in rigor_factors])`. -/
def rigorCount (factors : List String) : Nat :=
  factors.countP (fun f => decide (f ∈ rigor_factor_names))

/-- One merged, validated judgment: the dictionary built at filter.py
lines 240-247 after the id matched a known tweet. -/
structure Scored where
  tweet : Tweet
  score : Int
  reason : String
  superdunk : Bool
  factors : List String
  is_unknown_author : Bool
deriving DecidableEq

/-- The per-judgment enhanced-scoring block (filter.py lines 260-280):
factor explanation, dissent bonus (with its `min(10, ...)` cap and
` [dissent+k]` suffix), then the `[NEW] ` exploration prefix. Returns the
final score and the final explanation. -/
def adjustScore (cfg : Config) (s : Scored) : Int × String :=
  let explanation := build_explanation s.factors s.reason
  let rigor_count : Int := (rigorCount s.factors : Int)
  let step :=
    if "dissent_rigorous" ∈ s.factors ∧ cfg.dissent_min_rigor.fdiv 2 ≤ rigor_count then
      let bonus := min cfg.dissent_bonus_cap rigor_count
      (min 10 (s.score + bonus), explanation ++ " [dissent+" ++ toString bonus ++ "]")
    else (s.score, explanation)
  let explanation2 :=
    if s.is_unknown_author ∧ cfg.exploration_min_quality ≤ step.1 then
      "[NEW] " ++ step.2
    else step.2
  (step.1, explanation2)

/-- Threshold test and result construction (filter.py lines 282-289). -/
def processOne (cfg : Config) (s : Scored) : Option FilteredTweet :=
  let r := adjustScore cfg s
  if cfg.relevance_threshold ≤ r.1 then
    some { tweet := s.tweet, relevance_score := r.1, reason := r.2,
           is_superdunk := s.superdunk }
  else none

/-- `tweet_lookup = {t.id: t for t in tweets}` — a Python dict keeps the
last binding for a duplicated key, hence the reversed search. -/
def tweetLookup (tweets : List Tweet) (tid : String) : Option Tweet :=
  tweets.reverse.find? (fun t => t.id = tid)

/-- The merge loop of filter.py lines 237-247: keep a judgment only when
its `id` is present and matches a known tweet; missing fields take the
`dict.get` defaults (`score` 0, `reason` "", `superdunk` False,
`factors` [], `is_unknown_author` False). -/
def scoredOfResponse (tweets : List Tweet) (scores : List JDict) : List Scored :=
  scores.filterMap (fun d =>
    match d.id with
    | none => none
    | some tid =>
      (tweetLookup tweets tid).map (fun t =>
        { tweet := t, score := d.score.getD 0, reason := d.reason.getD (""),
          superdunk := d.superdunk.getD false, factors := d.factors.getD [],
          is_unknown_author := d.is_unknown_author.getD false }))

/-- The batch loop of filter.py lines 219-255: a batch whose oracle call
raised (`.error`) contributes no judgments; successful batches contribute
their matched judgments in order. -/
def allScored (tweets : List Tweet)
    (results : List (Except String (List JDict))) : List Scored :=
  (results.map (fun r =>
    match r with
    | Except.ok scores => scoredOfResponse tweets scores
    | Except.error _ => [])).flatten

/-- Descending order on final scores, non-strict so that insertion sorting
with it is stable, exactly like Python's
`filtered_tweets.sort(key=lambda x: x.relevance_score, reverse=True)`. -/
def scoreRel (a b : FilteredTweet) : Prop :=
  b.relevance_score ≤ a.relevance_score

instance : DecidableRel scoreRel := fun a b =>
  inferInstanceAs (Decidable (b.relevance_score ≤ a.relevance_score))

instance : IsTotal FilteredTweet scoreRel :=
  ⟨fun a b => le_total b.relevance_score a.relevance_score⟩

instance : IsTrans FilteredTweet scoreRel :=
  ⟨fun _ _ _ hab hbc => le_trans hbc hab⟩

/-- Post-oracle part of `filter_tweets` (lines 257-294), parameterized by
the per-batch oracle outcomes: merge, adjust, threshold-filter, sort. -/
def filterTweetsCore (cfg : Config) (tweets : List Tweet)
    (results : List (Except String (List JDict))) : List FilteredTweet :=
  List.insertionSort scoreRel ((allScored tweets results).filterMap (processOne cfg))

/-- Embedding of `filter_tweets`: batching plus `filterTweetsCore`. The
oracle argument stands for one `client.messages.create` call followed by
`parse_filter_response`; `.error` models the `except Exception` path. -/
def filter_tweets (oracle : List Tweet → Except String (List JDict))
    (tweets : List Tweet) (cfg : Config) : List FilteredTweet :=
  filterTweetsCore cfg tweets ((chunks cfg.batch_size tweets).map oracle)

/-- A pipeline run seen together with the module-level exploration cache:
`filter_tweets` neither reads `_exploration_author_cache` nor calls
`_is_author_in_cooldown` / `_mark_author_seen`, so a run leaves the cache
exactly as it was. -/
def filter_tweets_run (cache : List (String × ℚ))
    (oracle : List Tweet → Except String (List JDict))
    (tweets : List Tweet) (cfg : Config) :
    List FilteredTweet × List (String × ℚ) :=
  (filter_tweets oracle tweets cfg, cache)

/-! ## Response parsing (filter.py `parse_filter_response`, lines 108-122)

`json.loads` is modeled by a recursive-descent parser over the JSON value
grammar used by the oracle (null, booleans, integers, strings with the
standard single-character escapes, arrays, objects). Unmodeled corners of
the Python library (floats, `\uXXXX` escapes) simply make the model parse
fail, which the claims treat the same as any other malformed input. -/

inductive Json where
  | null : Json
  | bool : Bool → Json
  | num : Int → Json
  | str : String → Json
  | arr : List Json → Json
  | obj : List (String × Json) → Json

/-- JSON whitespace skipping. -/
def skipWs : List Char → List Char
  | [] => []
  | c :: cs => if c = ' ' ∨ c = '\n' ∨ c = '\t' ∨ c = '\r' then skipWs cs else c :: cs

/-- Single-character string escapes. -/
def escChar (c : Char) : Option Char :=
  if c = '"' ∨ c = '\\' ∨ c = '/' then some c
  else if c = 'n' then some '\n'
  else if c = 't' then some '\t'
  else if c = 'r' then some '\r'
  else if c = 'b' then some (Char.ofNat 8)
  else if c = 'f' then some (Char.ofNat 12)
  else none

/-- Parse the body of a string literal after the opening quote; returns the
decoded characters and the input after the closing quote. -/
def parseStringBody : List Char → Option (List Char × List Char)
  | [] => none
  | '"' :: rest => some ([], rest)
  | '\\' :: c :: rest =>
    match escChar c with
    | none => none
    | some e =>
      match parseStringBody rest with
      | none => none
      | some p => some (e :: p.1, p.2)
  | c :: rest =>
    match parseStringBody rest with
    | none => none
    | some p => some (c :: p.1, p.2)

/-- Decimal digits to a natural number. -/
def digitsToNat (ds : List Char) : Nat :=
  ds.foldl (fun acc c => acc * 10 + (c.toNat - 48)) 0

/-- Parse an optionally-signed decimal integer. -/
def parseNumber (cs : List Char) : Option (Int × List Char) :=
  match cs with
  | '-' :: rest =>
    let ds := rest.takeWhile (fun c => c.isDigit)
    if ds = [] then none else some (-(digitsToNat ds : Int), rest.drop ds.length)
  | _ =>
    let ds := cs.takeWhile (fun c => c.isDigit)
    if ds = [] then none else some ((digitsToNat ds : Int), cs.drop ds.length)

mutual

/-- Parse one JSON value (fuel-driven recursion). -/
def parseValue : Nat → List Char → Option (Json × List Char)
  | 0, _ => none
  | fuel + 1, cs =>
    match skipWs cs with
    | 'n' :: 'u' :: 'l' :: 'l' :: r => some (Json.null, r)
    | 't' :: 'r' :: 'u' :: 'e' :: r => some (Json.bool true, r)
    | 'f' :: 'a' :: 'l' :: 's' :: 'e' :: r => some (Json.bool false, r)
    | '"' :: r =>
      match parseStringBody r with
      | none => none
      | some p => some (Json.str (String.mk p.1), p.2)
    | '[' :: r => parseArrayRest fuel r
    | '{' :: r => parseObjRest fuel r
    | other =>
      match parseNumber other with
      | none => none
      | some p => some (Json.num p.1, p.2)

/-- Parse the remainder of an array after `[`. -/
def parseArrayRest : Nat → List Char → Option (Json × List Char)
  | 0, _ => none
  | fuel + 1, cs =>
    match skipWs cs with
    | ']' :: r => some (Json.arr [], r)
    | cs2 => parseItems fuel cs2 []

/-- Parse comma-separated array items up to the closing `]`. -/
def parseItems : Nat → List Char → List Json → Option (Json × List Char)
  | 0, _, _ => none
  | fuel + 1, cs, acc =>
    match parseValue fuel cs with
    | none => none
    | some (v, rest) =>
      match skipWs rest with
      | ',' :: r => parseItems fuel r (acc ++ [v])
      | ']' :: r => some (Json.arr (acc ++ [v]), r)
      | _ => none

/-- Parse the remainder of an object after `{`. -/
def parseObjRest : Nat → List Char → Option (Json × List Char)
  | 0, _ => none
  | fuel + 1, cs =>
    match skipWs cs with
    | '}' :: r => some (Json.obj [], r)
    | cs2 => parseMembers fuel cs2 []

/-- Parse comma-separated `"key": value` members up to the closing `}`. -/
def parseMembers : Nat → List Char → List (String × Json) → Option (Json × List Char)
  | 0, _, _ => none
  | fuel + 1, cs, acc =>
    match skipWs cs with
    | '"' :: r =>
      match parseStringBody r with
      | none => none
      | some k =>
        match skipWs k.2 with
        | ':' :: r3 =>
          match parseValue fuel r3 with
          | none => none
          | some (v, r4) =>
            match skipWs r4 with
            | ',' :: r5 => parseMembers fuel r5 (acc ++ [(String.mk k.1, v)])
            | '}' :: r5 => some (Json.obj (acc ++ [(String.mk k.1, v)]), r5)
            | _ => none
        | _ => none
    | _ => none

end

/-- Model of `json.loads` on a character list: parse one value and require
that only whitespace remains. The fuel `4 * length + 8` dominates the
parser's call depth, which consumes at least one character every three
nested calls. -/
def jsonLoads (cs : List Char) : Option Json :=
  match parseValue (4 * cs.length + 8) cs with
  | some (v, rest) => if skipWs rest = [] then some v else none
  | none => none

/-- Model of `re.search(r'\[[\s\S]*\]', response_text)`: the leftmost-and-
greedy match runs from the first `[` to the last `]` of the whole text,
provided that `]` comes after that `[`; otherwise there is no match. -/
def extractBracketRegion (cs : List Char) : Option (List Char) :=
  match cs.findIdx? (fun c => c = '['), cs.reverse.findIdx? (fun c => c = ']') with
  | some i, some jr =>
    let j := cs.length - 1 - jr
    if i < j then some ((cs.drop i).take (j - i + 1)) else none
  | _, _ => none

/-- Fallback of filter.py lines 118-122: try to parse the whole response;
on failure return the empty list. -/
def fallbackParse (s : String) : Json :=
  match jsonLoads s.data with
  | some v => v
  | none => Json.arr []

/-- Embedding of `parse_filter_response`: extract the first bracketed
region and parse it; on regex miss or parse failure, fall back to parsing
the whole text; on any failure return `[]` rather than raising. -/
def parse_filter_response (s : String) : Json :=
  match extractBracketRegion s.data with
  | some region =>
    match jsonLoads region with
    | some v => v
    | none => fallbackParse s
  | none => fallbackParse s

/-- Both parsing attempts of `parse_filter_response` fail on `s`: the
bracketed region (when the regex matches) is unparseable and so is the
whole text. -/
def parseFails (s : String) : Prop :=
  (match extractBracketRegion s.data with
   | some region => jsonLoads region = none
   | none => True) ∧ jsonLoads s.data = none

/-! ## Reputation store (src/xfeed/reputation.py)

The SQLite tables are embedded as lists of rows; `datetime.now()` becomes
an explicit `now` argument, timestamps counted in days. -/

/-- One row of the `authors` table. -/
structure AuthorRow where
  handle : String
  display_name : String
  first_seen : ℚ
  last_seen : ℚ
deriving DecidableEq

/-- One row of the `tweet_scores` table. -/
structure SampleRow where
  author_handle : String
  score : Int
  scored_at : ℚ
  tweet_id : Option String := none
deriving DecidableEq

/-- The reputation database state. -/
structure AuthorDBModel where
  authors : List AuthorRow
  tweet_scores : List SampleRow
deriving DecidableEq

/-- The `AuthorStats` dataclass. -/
structure AuthorStats where
  handle : String
  display_name : String
  total_tweets_seen : Nat
  avg_score : ℚ
  recent_avg_score : ℚ
  last_seen : ℚ
  first_seen : ℚ
  trend : String
  is_trusted : Bool
deriving DecidableEq

/-- Rows of `tweet_scores` for one (already lowercased) handle, in table
order: `SELECT ... WHERE author_handle = ?`. -/
def samplesFor (db : AuthorDBModel) (handle : String) : List SampleRow :=
  db.tweet_scores.filter (fun r => r.author_handle = handle)

/-- Non-strict descending order on scores; `ORDER BY score DESC`. -/
def descRel (a b : Int) : Prop := b ≤ a

instance : DecidableRel descRel := fun a b => inferInstanceAs (Decidable (b ≤ a))

instance : IsTotal Int descRel := ⟨fun a b => le_total b a⟩

instance : IsTrans Int descRel := ⟨fun _ _ _ hab hbc => le_trans hbc hab⟩

instance : IsAntisymm Int descRel := ⟨fun _ _ h1 h2 => le_antisymm h2 h1⟩

/-- Sort scores descending (`ORDER BY score DESC`). -/
def sortScoresDesc (scores : List Int) : List Int :=
  List.insertionSort descRel scores

/-- `keep_count = max(1, int(total_count * 0.8))`. For every list length
`n`, the float product `n * 0.8` lies in `[4n/5, 4n/5 + 1)` — the binary
double closest to 0.8 is slightly above 0.8 and the product's rounding
error is far below 1 — so Python's truncating `int()` yields `⌊4n/5⌋`. -/
def keepCount (n : Nat) : Nat := max 1 ((4 * n) / 5)

/-- The forgiving average of reputation.py lines 160-164: sort descending,
keep the top `keep_count` scores, average those. -/
def forgivingAverage (scores : List Int) : ℚ :=
  let sorted := sortScoresDesc scores
  let top_scores := sorted.take (keepCount scores.length)
  (top_scores.sum : ℚ) / (top_scores.length : ℚ)

/-- SQL `AVG(score)`: `NULL` (here `none`) on an empty set. -/
def sqlAvg (l : List Int) : Option ℚ :=
  if l.isEmpty then none else some ((l.sum : ℚ) / (l.length : ℚ))

/-- Embedding of `AuthorDB._calculate_trend`: mean of the last 7 days
against the mean of the prior 7-14 day window, "stable" when either window
is empty, otherwise thresholded at ±0.5. -/
def calculate_trend (db : AuthorDBModel) (handle : String) (now : ℚ) : String :=
  let recent := sqlAvg (((samplesFor db handle).filter
    (fun r => decide (now - 7 < r.scored_at))).map (fun r => r.score))
  let previous := sqlAvg (((samplesFor db handle).filter
    (fun r => decide (now - 14 < r.scored_at ∧ r.scored_at ≤ now - 7))).map (fun r => r.score))
  match recent, previous with
  | some rv, some pv =>
    if 1/2 < rv - pv then "rising"
    else if rv - pv < -(1/2) then "declining"
    else "stable"
  | _, _ => "stable"

/-- Embedding of `AuthorDB.get_author_stats`: `None` for an unknown handle
or one with zero samples; otherwise the forgiving all-time average, the
forgiving 30-day average (falling back to the all-time value), the trend,
and the trusted flag `total_count >= min_samples and avg >= threshold`. -/
def get_author_stats (db : AuthorDBModel) (author_handle : String)
    (cfg : Config) (now : ℚ) : Option AuthorStats :=
  let handle := lowerStr author_handle
  match db.authors.find? (fun a => a.handle = handle) with
  | none => none
  | some author =>
    let all_scores := (samplesFor db handle).map (fun r => r.score)
    let total_count := all_scores.length
    if total_count = 0 then none
    else
      let avg_score := forgivingAverage all_scores
      let recent_scores := ((samplesFor db handle).filter
        (fun r => decide (now - 30 < r.scored_at))).map (fun r => r.score)
      let recent_avg :=
        if recent_scores.isEmpty then avg_score else forgivingAverage recent_scores
      some { handle := handle, display_name := author.display_name,
             total_tweets_seen := total_count, avg_score := avg_score,
             recent_avg_score := recent_avg, last_seen := author.last_seen,
             first_seen := author.first_seen,
             trend := calculate_trend db handle now,
             is_trusted := decide (cfg.reputation_minimum_samples ≤ total_count ∧
               cfg.reputation_trusted_threshold ≤ avg_score) }

/-- Embedding of `AuthorStats.reputation_boost`: zero below minimum samples
or when not trusted, otherwise `min(boost_max, max(0, excess * 0.5))` with
`excess = avg_score - trusted_threshold`. -/
def AuthorStats.reputation_boost (s : AuthorStats) (cfg : Config) : ℚ :=
  if s.total_tweets_seen < cfg.reputation_minimum_samples then 0
  else if ¬ s.is_trusted then 0
  else min cfg.reputation_boost_max (max 0 ((s.avg_score - cfg.reputation_trusted_threshold) * (1/2)))

/-- Plain mean of all of one author's scores, as computed by the SQL
aggregate `AVG(s.score)` over the join in `get_trusted_authors`. -/
def plainMean (db : AuthorDBModel) (handle : String) : ℚ :=
  let ss : List Int := (samplesFor db handle).map (fun r => r.score)
  (ss.sum : ℚ) / (ss.length : ℚ)

/-- The SQL `HAVING COUNT(s.id) >= min_samples AND AVG(s.score) >= threshold`
filter of `get_trusted_authors`: the group exists (inner join) and passes
both aggregate conditions. Note the plain `AVG`, not the forgiving average. -/
def plainQualifies (db : AuthorDBModel) (cfg : Config) (a : AuthorRow) : Bool :=
  let ss := samplesFor db a.handle
  decide (ss ≠ [] ∧ cfg.reputation_minimum_samples ≤ ss.length ∧
    cfg.reputation_trusted_threshold ≤ plainMean db a.handle)

/-- `ORDER BY AVG(s.score) DESC` on author rows. -/
def meanRel (db : AuthorDBModel) (a b : AuthorRow) : Prop :=
  plainMean db b.handle ≤ plainMean db a.handle

instance (db : AuthorDBModel) : DecidableRel (meanRel db) := fun a b =>
  inferInstanceAs (Decidable (plainMean db b.handle ≤ plainMean db a.handle))

instance (db : AuthorDBModel) : IsTotal AuthorRow (meanRel db) :=
  ⟨fun a b => le_total (plainMean db b.handle) (plainMean db a.handle)⟩

instance (db : AuthorDBModel) : IsTrans AuthorRow (meanRel db) :=
  ⟨fun _ _ _ hab hbc => le_trans hbc hab⟩

/-- The SQL query of `get_trusted_authors` (lines 248-259): group per
author over the join, apply the `HAVING` filter, order by plain average
descending, limit. -/
def trustedAuthorRows (db : AuthorDBModel) (cfg : Config) (limit : Nat) :
    List AuthorRow :=
  (List.insertionSort (meanRel db) (db.authors.filter (plainQualifies db cfg))).take limit

/-- Embedding of `AuthorDB.get_trusted_authors`: the SQL-selected handles
rendered through `get_author_stats` (dropping any `None`). -/
def get_trusted_authors (db : AuthorDBModel) (limit : Nat) (cfg : Config)
    (now : ℚ) : List AuthorStats :=
  (trustedAuthorRows db cfg limit).filterMap
    (fun a => get_author_stats db a.handle cfg now)

/-! ## Spec-side definitions (for comparison with the source's behavior) -/

/-- Modelled from the spec: the claimed kept-sample count for the forgiving
average, `ceil(0.8 × N)` with a minimum of 1 (`⌈4n/5⌉ = (4n+4)/5` in
natural division). -/
def keepCountSpecCeil (n : Nat) : Nat := max 1 ((4 * n + 4) / 5)

/-- Modelled from the spec: the forgiving average as the spec words it,
averaging the top `ceil(0.8 × N)` scores (minimum 1) after sorting
descending. -/
def forgivingAverageSpecCeil (scores : List Int) : ℚ :=
  let sorted := sortScoresDesc scores
  let top_scores := sorted.take (keepCountSpecCeil scores.length)
  (top_scores.sum : ℚ) / (top_scores.length : ℚ)

/-- Modelled from the spec: the claimed clamp of a final score into
`[0, 10]`. -/
def clampSpec (n : Int) : Int := min 10 (max 0 n)

/-- Modelled from the spec: the claimed pre-threshold score with the
author-reputation boost applied to a judgment's score. -/
def specBoostedScore (stats : AuthorStats) (cfg : Config) (score : Int) : ℚ :=
  (score : ℚ) + stats.reputation_boost cfg

/-! ## Concrete inputs used by witnesses and counterexamples -/

/-- A minimal tweet with a given id. -/
def mkTweet (i : String) : Tweet :=
  { id := i, author := "Author", author_handle := "@author", content := "content" }

/-- A minimal judgment dictionary with an id and a score. -/
def jd (i : String) (sc : Int) : JDict := { id := some i, score := some sc }

/-- Oracle answering a single judgment of score 8 for tweet "1". -/
def c2oracle : List Tweet → Except String (List JDict) :=
  fun _ => Except.ok [jd ("1") 8]

/-- Author statistics of a trusted author whose forgiving average is 8.5
(five samples 9, 9, 8, 8, 2), as `get_author_stats` derives them. -/
def c2stats : AuthorStats :=
  { handle := "a", display_name := "A", total_tweets_seen := 5,
    avg_score := 17/2, recent_avg_score := 17/2, last_seen := 0,
    first_seen := 0, trend := "stable", is_trusted := true }

/-- Oracle answering an out-of-range score 15 for tweet "1". -/
def c3oracle : List Tweet → Except String (List JDict) :=
  fun _ => Except.ok [jd ("1") 15]

/-- Oracle answering two judgments with the same id "1". -/
def c4oracle : List Tweet → Except String (List JDict) :=
  fun _ => Except.ok [jd ("1") 8, jd ("1") 8]

/-- Oracle marking tweet "1" as by an unknown author with score 9. -/
def c5oracle : List Tweet → Except String (List JDict) :=
  fun _ => Except.ok [{ id := some "1", score := some 9, reason := some "r",
                        is_unknown_author := some true }]

/-- Oracle answering scores 10, 7, 6, 9, 0 for tweets "1".."5". -/
def c7oracle : List Tweet → Except String (List JDict) :=
  fun _ => Except.ok [jd ("1") 10, jd ("2") 7, jd ("3") 6, jd ("4") 9, jd ("5") 0]

def c7tweets : List Tweet :=
  [mkTweet ("1"), mkTweet ("2"), mkTweet ("3"), mkTweet ("4"), mkTweet ("5")]

/-- Batch size 1, everything else default: three tweets become three
batches. -/
def c8cfg : Config := { defaultConfig with batch_size := 1 }

def c8tweets : List Tweet := [mkTweet ("1"), mkTweet ("2"), mkTweet ("3")]

/-- Oracle whose call raises on the second batch and succeeds on the
others (score 9 for tweet "1", 8 for tweet "3"). -/
def c8oracle : List Tweet → Except String (List JDict) :=
  fun b =>
    match b with
    | [t] =>
      if t.id = "2" then Except.error "API error processing batch"
      else Except.ok [jd t.id (if t.id = "1" then 9 else 8)]
    | _ => Except.error "unexpected batch shape"

/-- Reputation store with one author `a` holding samples 9, 9, 8, 8, 2
(plain mean 7.2, forgiving average 8.5). -/
def c10db : AuthorDBModel :=
  { authors := [{ handle := "a", display_name := "A", first_seen := 0, last_seen := 0 }],
    tweet_scores :=
      [{ author_handle := "a", score := 9, scored_at := 0 },
       { author_handle := "a", score := 9, scored_at := 0 },
       { author_handle := "a", score := 8, scored_at := 0 },
       { author_handle := "a", score := 8, scored_at := 0 },
       { author_handle := "a", score := 2, scored_at := 0 }] }

/-- Reputation store with one author `a` holding five samples of 8
(plain mean 8, above the trusted threshold). -/
def c10wdb : AuthorDBModel :=
  { authors := [{ handle := "a", display_name := "A", first_seen := 0, last_seen := 0 }],
    tweet_scores :=
      [{ author_handle := "a", score := 8, scored_at := 0 },
       { author_handle := "a", score := 8, scored_at := 0 },
       { author_handle := "a", score := 8, scored_at := 0 },
       { author_handle := "a", score := 8, scored_at := 0 },
       { author_handle := "a", score := 8, scored_at := 0 }] }

/-- The single pipeline result for a judgment of score 8 on tweet "1"
with no factors. -/
def ftScore8 : FilteredTweet :=
  { tweet := mkTweet ("1"), relevance_score := 8, reason := "" }

/-- A judgment without the dissent factor. -/
def sNoDissent : Scored :=
  { tweet := mkTweet ("1"), score := 5, reason := "r", superdunk := false,
    factors := ["vague"], is_unknown_author := false }

/-- A rigorous dissenting judgment (rigor count 3). -/
def sDissent : Scored :=
  { tweet := mkTweet ("1"), score := 5, reason := "r", superdunk := false,
    factors := ["dissent_rigorous", "mechanism", "evidence", "tradeoffs"],
    is_unknown_author := false }

/-! ## Helper lemmas -/

/-- The forgiving average, written without `let` bindings. -/
lemma forgivingAverage_eq (scores : List Int) :
    forgivingAverage scores =
      (((sortScoresDesc scores).take (keepCount scores.length)).sum : ℚ) /
        (((sortScoresDesc scores).take (keepCount scores.length)).length : ℚ) := rfl

/-- The forgiving average with the spec's ceil count, without `let`s. -/
lemma forgivingAverageSpecCeil_eq (scores : List Int) :
    forgivingAverageSpecCeil scores =
      (((sortScoresDesc scores).take (keepCountSpecCeil scores.length)).sum : ℚ) /
        (((sortScoresDesc scores).take (keepCountSpecCeil scores.length)).length : ℚ) := rfl

/-- The plain SQL mean, written without `let` bindings. -/
lemma plainMean_eq (db : AuthorDBModel) (h : String) :
    plainMean db h =
      (((((samplesFor db h).map (fun r => r.score)).sum : Int) : ℚ)) /
        ((((samplesFor db h).map (fun r => r.score)).length : ℚ)) := rfl

/-- The length of a `filterMap` counts the elements mapped to `some`. -/
lemma length_filterMap_eq_countP {α β : Type} (f : α → Option β) (l : List α) :
    (l.filterMap f).length = l.countP (fun a => (f a).isSome) := by
  induction l with
  | nil => rfl
  | cons a l ih =>
    cases h : f a with
    | none => simp [List.filterMap_cons, h, List.countP_cons, ih]
    | some b => simp [List.filterMap_cons, h, List.countP_cons, ih]

/-- Inserting into a sorted-by-score list preserves the subsequence of any
fixed score (the key stability fact). -/
lemma filter_score_orderedInsert (q : Int) (a : FilteredTweet) (l : List FilteredTweet) :
    (List.orderedInsert scoreRel a l).filter (fun x => decide (x.relevance_score = q)) =
      if a.relevance_score = q then
        a :: l.filter (fun x => decide (x.relevance_score = q))
      else l.filter (fun x => decide (x.relevance_score = q)) := by
  induction l with
  | nil =>
    by_cases ha : a.relevance_score = q <;> simp [List.orderedInsert, ha]
  | cons b l ih =>
    by_cases hr : scoreRel a b
    · by_cases ha : a.relevance_score = q <;>
        simp [List.orderedInsert, if_pos hr, List.filter_cons, ha]
    · by_cases ha : a.relevance_score = q
      · have hb : ¬ (b.relevance_score = q) := by
          intro hbq
          exact hr (le_of_eq (hbq.trans ha.symm))
        simp [List.orderedInsert, if_neg hr, List.filter_cons, hb, ih, ha]
      · simp [List.orderedInsert, if_neg hr, List.filter_cons, ih, ha]

/-- Stability of the final sort: for each score value, the results with
that score appear in the same order as before sorting. -/
lemma filter_score_insertionSort (q : Int) (l : List FilteredTweet) :
    (List.insertionSort scoreRel l).filter (fun x => decide (x.relevance_score = q)) =
      l.filter (fun x => decide (x.relevance_score = q)) := by
  induction l with
  | nil => rfl
  | cons a l ih =>
    rw [List.insertionSort, filter_score_orderedInsert]
    by_cases ha : a.relevance_score = q <;> simp [List.filter_cons, ha, ih]

/-- Membership in the merged judgment list comes from a successful batch. -/
lemma mem_allScored {tweets : List Tweet} {rs : List (Except String (List JDict))}
    {s : Scored} (h : s ∈ allScored tweets rs) :
    ∃ l, Except.ok l ∈ rs ∧ s ∈ scoredOfResponse tweets l := by
  unfold allScored at h
  rw [List.mem_flatten] at h
  obtain ⟨chunk, hchunk, hs⟩ := h
  rw [List.mem_map] at hchunk
  obtain ⟨r, hr, hrc⟩ := hchunk
  cases r with
  | ok l =>
    rw [← hrc] at hs
    exact ⟨l, hr, hs⟩
  | error e =>
    rw [← hrc] at hs
    exact absurd hs (List.not_mem_nil s)

/-- Every merged judgment's base score is its dictionary's score with the
`get("score", 0)` default. -/
lemma score_of_mem_scoredOfResponse {tweets : List Tweet} {ds : List JDict}
    {s : Scored} (h : s ∈ scoredOfResponse tweets ds) :
    ∃ d ∈ ds, s.score = d.score.getD 0 := by
  unfold scoredOfResponse at h
  rw [List.mem_filterMap] at h
  obtain ⟨d, hd, he⟩ := h
  refine ⟨d, hd, ?_⟩
  cases hid : d.id with
  | none => rw [hid] at he; cases he
  | some tid =>
    rw [hid] at he
    rw [Option.map_eq_some'] at he
    obtain ⟨t, _, hrec⟩ := he
    rw [← hrec]

/-- Inversion of the threshold test of filter.py lines 282-289. -/
lemma processOne_eq_some {cfg : Config} {s : Scored} {ft : FilteredTweet}
    (h : processOne cfg s = some ft) :
    cfg.relevance_threshold ≤ (adjustScore cfg s).1 ∧
      ft = { tweet := s.tweet, relevance_score := (adjustScore cfg s).1,
             reason := (adjustScore cfg s).2, is_superdunk := s.superdunk } := by
  unfold processOne at h
  by_cases hc : cfg.relevance_threshold ≤ (adjustScore cfg s).1
  · rw [if_pos hc] at h
    exact ⟨hc, (Option.some_inj.mp h).symm⟩
  · rw [if_neg hc] at h
    cases h

/-- The adjusted score stays in `[0, 10]` when the base score does and the
dissent cap is non-negative. -/
lemma adjustScore_fst_bounds {cfg : Config} {s : Scored}
    (hcap : 0 ≤ cfg.dissent_bonus_cap) (h0 : 0 ≤ s.score) (h10 : s.score ≤ 10) :
    0 ≤ (adjustScore cfg s).1 ∧ (adjustScore cfg s).1 ≤ 10 := by
  unfold adjustScore
  by_cases hc : "dissent_rigorous" ∈ s.factors ∧
      cfg.dissent_min_rigor.fdiv 2 ≤ ((rigorCount s.factors : Nat) : Int)
  · simp only [if_pos hc]
    constructor
    · have hb : (0 : Int) ≤ min cfg.dissent_bonus_cap (rigorCount s.factors : Int) :=
        le_min hcap (Int.natCast_nonneg _)
      exact le_min (by norm_num) (add_nonneg h0 hb)
    · exact min_le_left _ _
  · simp only [if_neg hc]
    exact ⟨h0, h10⟩

/-- Unfolding one batch of the merge loop. -/
lemma allScored_cons (tweets : List Tweet) (r : Except String (List JDict))
    (rs : List (Except String (List JDict))) :
    allScored tweets (r :: rs) =
      (match r with
       | Except.ok l => scoredOfResponse tweets l
       | Except.error _ => []) ++ allScored tweets rs := by
  simp [allScored]

/-- Failed batches contribute nothing: merging only the successful batch
results gives the same judgment list. -/
lemma allScored_filter_isOk (tweets : List Tweet)
    (rs : List (Except String (List JDict))) :
    allScored tweets (rs.filter (fun r => r.isOk)) = allScored tweets rs := by
  induction rs with
  | nil => rfl
  | cons r rs ih =>
    rw [List.filter_cons]
    cases r with
    | ok l =>
      rw [if_pos (show (Except.ok l).isOk = true from rfl), allScored_cons,
        allScored_cons, ih]
    | error e =>
      rw [if_neg (by simp [Except.isOk, Except.toBool]), allScored_cons]
      simpa using ih

/-- Evaluation of `get_author_stats` when the author row is found and has
at least one sample. -/
lemma get_author_stats_eq (db : AuthorDBModel) (h : String) (cfg : Config)
    (now : ℚ) (author : AuthorRow)
    (hfind : db.authors.find? (fun a => a.handle = lowerStr h) = some author)
    (hne : ((samplesFor db (lowerStr h)).map (fun r => r.score)).length ≠ 0) :
    get_author_stats db h cfg now = some
      { handle := lowerStr h, display_name := author.display_name,
        total_tweets_seen := ((samplesFor db (lowerStr h)).map (fun r => r.score)).length,
        avg_score := forgivingAverage ((samplesFor db (lowerStr h)).map (fun r => r.score)),
        recent_avg_score :=
          if ((((samplesFor db (lowerStr h)).filter
              (fun r => decide (now - 30 < r.scored_at))).map (fun r => r.score)).isEmpty) then
            forgivingAverage ((samplesFor db (lowerStr h)).map (fun r => r.score))
          else
            forgivingAverage (((samplesFor db (lowerStr h)).filter
              (fun r => decide (now - 30 < r.scored_at))).map (fun r => r.score)),
        last_seen := author.last_seen, first_seen := author.first_seen,
        trend := calculate_trend db (lowerStr h) now,
        is_trusted := decide (cfg.reputation_minimum_samples ≤
            ((samplesFor db (lowerStr h)).map (fun r => r.score)).length ∧
          cfg.reputation_trusted_threshold ≤
            forgivingAverage ((samplesFor db (lowerStr h)).map (fun r => r.score))) } := by
  simp only [get_author_stats, hfind]
  rw [if_neg hne]

/-! ## Claims -/

/-- C6: the dissent-bonus step leaves the score unchanged whenever
`dissent_rigorous` is absent from the judgment's factors, for any rigor
count; when it is present and `rigor_count ≥ dissent_min_rigor // 2`
(floor division), the step adds `min(dissent_bonus_cap, rigor_count)` and
caps the result at 10, where `rigor_count` counts the factors in
{mechanism, evidence, tradeoffs, uncertainty, assumptions}. -/
theorem c6_dissent_bonus_gating :
    ∀ (cfg : Config) (s : Scored),
      ("dissent_rigorous" ∉ s.factors → (adjustScore cfg s).1 = s.score) ∧
      ("dissent_rigorous" ∈ s.factors ∧
          cfg.dissent_min_rigor.fdiv 2 ≤ (rigorCount s.factors : Int) →
        (adjustScore cfg s).1 =
          min 10 (s.score + min cfg.dissent_bonus_cap (rigorCount s.factors : Int))) := by
  intro cfg s
  constructor
  · intro h
    simp [adjustScore, h]
  · intro h
    simp [adjustScore, h.1, h.2]

/-- Witness for C6 at concrete judgments: a judgment without the dissent
factor keeps its score 5; a rigorous dissenting judgment (rigor count 3,
cap 2) is adjusted accordingly. -/
theorem c6_witness :
    (adjustScore defaultConfig sNoDissent).1 = sNoDissent.score ∧
    (adjustScore defaultConfig sDissent).1 =
      min 10 (sDissent.score +
        min defaultConfig.dissent_bonus_cap (rigorCount sDissent.factors : Int)) :=
  ⟨(c6_dissent_bonus_gating defaultConfig sNoDissent).1 (by decide),
   (c6_dissent_bonus_gating defaultConfig sDissent).2 (by decide)⟩

/-- C7: the pipeline returns exactly the scored judgments whose final
score passes the threshold (the permutation), sorted by final score
descending (the sortedness), with equal scores in their pre-sort, that is
input, order (the per-score filter equation); on final scores
[10, 7, 6, 9, 0] with threshold 7 it returns exactly the posts scoring
10, 9, 7 in that order. -/
theorem c7_threshold_filter_sort :
    (∀ (cfg : Config) (tweets : List Tweet) (rs : List (Except String (List JDict))),
      (filterTweetsCore cfg tweets rs).Perm
        ((allScored tweets rs).filterMap (processOne cfg))) ∧
    (∀ (cfg : Config) (tweets : List Tweet) (rs : List (Except String (List JDict))),
      (filterTweetsCore cfg tweets rs).Sorted scoreRel) ∧
    (∀ (cfg : Config) (tweets : List Tweet) (rs : List (Except String (List JDict)))
        (q : Int),
      (filterTweetsCore cfg tweets rs).filter (fun ft => decide (ft.relevance_score = q)) =
        ((allScored tweets rs).filterMap (processOne cfg)).filter
          (fun ft => decide (ft.relevance_score = q))) ∧
    (filter_tweets c7oracle c7tweets defaultConfig).map
        (fun ft => (ft.tweet.id, ft.relevance_score)) = [("1", 10), ("4", 9), ("2", 7)] := by
  refine ⟨?_, ?_, ?_, by decide⟩
  · intro cfg tweets rs
    exact List.perm_insertionSort scoreRel _
  · intro cfg tweets rs
    exact List.sorted_insertionSort scoreRel _
  · intro cfg tweets rs q
    exact filter_score_insertionSort q _

/-- C8: a batch whose oracle call fails contributes zero judgments and the
run continues — the pipeline output equals the output computed from the
successful batches alone; concretely, with three one-tweet batches whose
second raises, the results from batches 1 and 3 are still returned,
filtered and sorted. -/
theorem c8_batch_failure_isolation :
    (∀ (cfg : Config) (tweets : List Tweet) (rs : List (Except String (List JDict))),
      filterTweetsCore cfg tweets rs =
        filterTweetsCore cfg tweets (rs.filter (fun r => r.isOk))) ∧
    (filter_tweets c8oracle c8tweets c8cfg).map
      (fun ft => (ft.tweet.id, ft.relevance_score)) = [("1", 9), ("3", 8)] := by
  constructor
  · intro cfg tweets rs
    unfold filterTweetsCore
    rw [allScored_filter_isOk]
  · decide

/-- C9: the response parser is total and returns the empty sequence on any
parse failure; on "garbage text with no json" it returns the empty
sequence, and on a JSON array wrapped in prose it returns exactly one
judgment record with id "1". -/
theorem c9_parser_robustness :
    (∀ s : String, parseFails s → parse_filter_response s = Json.arr []) ∧
    parse_filter_response ("garbage text with no json") = Json.arr [] ∧
    parse_filter_response ("blah [\x7b\"id\":\"1\",\"score\":5\x7d] blah") =
      Json.arr [Json.obj [("id", Json.str ("1")), ("score", Json.num 5)]] := by
  refine ⟨?_, rfl, rfl⟩
  intro s hf
  obtain ⟨h1, h2⟩ := hf
  unfold parse_filter_response
  cases he : extractBracketRegion s.data with
  | none =>
    show fallbackParse s = Json.arr []
    unfold fallbackParse
    rw [h2]
  | some region =>
    rw [he] at h1
    show (match jsonLoads region with
          | some v => v
          | none => fallbackParse s) = Json.arr []
    rw [show jsonLoads region = none from h1]
    unfold fallbackParse
    rw [h2]

/-- Witness for C9: the universal failure clause applied at the concrete
unparseable input. -/
theorem c9_witness :
    parse_filter_response ("garbage text with no json") = Json.arr [] :=
  c9_parser_robustness.1 ("garbage text with no json") ⟨trivial, rfl⟩

/-- C4 counterexample: when the oracle returns two judgments with the same
id "1", the pipeline returns two results for the same post identifier —
the output is not deduplicated. -/
theorem c4_duplicate_ids_cex :
    (filter_tweets c4oracle [mkTweet ("1")] defaultConfig).map
      (fun ft => ft.tweet.id) = ["1", "1"] := by decide

/-- C4 amended: the pipeline performs no deduplication — it returns
exactly one result per qualifying judgment, counted with multiplicity, so
duplicate oracle judgments for one id yield duplicate results. -/
theorem c4_amended_no_dedup :
    ∀ (cfg : Config) (tweets : List Tweet) (rs : List (Except String (List JDict))),
      (filterTweetsCore cfg tweets rs).length =
        (allScored tweets rs).countP (fun s => (processOne cfg s).isSome) := by
  intro cfg tweets rs
  unfold filterTweetsCore
  rw [(List.perm_insertionSort scoreRel _).length_eq, length_filterMap_eq_countP]

/-- C3 counterexample: an oracle score of 15 with no factors reaches the
output unchanged — final scores are not clamped into [0, 10]. -/
theorem c3_out_of_range_cex :
    (filter_tweets c3oracle [mkTweet ("1")] defaultConfig).map
      (fun ft => ft.relevance_score) = [15] ∧ ¬ ((15 : Int) ≤ 10) := by decide

/-- C3 amended: a judgment with a missing score is treated as score 0; no
clamp is applied — the only cap is the dissent path's `min(10, ...)` — so
output scores are guaranteed in [0, 10] only when the oracle's scores are;
in that case (and with a non-negative dissent cap) every returned score
lies in [0, 10]. -/
theorem c3_amended_score_handling :
    (∀ (tweets : List Tweet) (ds : List JDict) (s : Scored),
      s ∈ scoredOfResponse tweets ds → ∃ d ∈ ds, s.score = d.score.getD 0) ∧
    (∀ (cfg : Config) (tweets : List Tweet) (rs : List (Except String (List JDict))),
      0 ≤ cfg.dissent_bonus_cap →
      (∀ l, Except.ok l ∈ rs → ∀ d ∈ l, ∀ v ∈ d.score, 0 ≤ v ∧ v ≤ 10) →
      ∀ ft ∈ filterTweetsCore cfg tweets rs,
        0 ≤ ft.relevance_score ∧ ft.relevance_score ≤ 10) := by
  constructor
  · intro tweets ds s h
    exact score_of_mem_scoredOfResponse h
  · intro cfg tweets rs hcap hr ft hft
    unfold filterTweetsCore at hft
    rw [(List.perm_insertionSort scoreRel _).mem_iff, List.mem_filterMap] at hft
    obtain ⟨s, hs, hp⟩ := hft
    obtain ⟨l, hl, hsl⟩ := mem_allScored hs
    obtain ⟨d, hd, hscore⟩ := score_of_mem_scoredOfResponse hsl
    have hsb : 0 ≤ s.score ∧ s.score ≤ 10 := by
      rw [hscore]
      cases hv : d.score with
      | none => simp
      | some v =>
        have hvb := hr l hl d hd v hv
        simpa [hv] using hvb
    obtain ⟨hpth, hfteq⟩ := processOne_eq_some hp
    rw [hfteq]
    exact adjustScore_fst_bounds hcap hsb.1 hsb.2

/-- Witness for C3 at a concrete in-range run: the single result of an
oracle score 8 lies in [0, 10]. -/
theorem c3_witness :
    0 ≤ ftScore8.relevance_score ∧ ftScore8.relevance_score ≤ 10 :=
  c3_amended_score_handling.2 defaultConfig [mkTweet ("1")] [Except.ok [jd ("1") 8]]
    (by decide)
    (by
      intro l hl d hd v hv
      rw [List.mem_singleton] at hl
      injection hl with hl2
      subst hl2
      rw [List.mem_singleton] at hd
      subst hd
      simp only [jd, Option.mem_def, Option.some.injEq] at hv
      subst hv
      constructor <;> decide)
    ftScore8 (by decide)

/-- C2 counterexample: with a trusted author of forgiving average 8.5
(boost 0.5) and an oracle score of 8, the pipeline outputs 8 — the
spec-claimed boosted pre-threshold score 8.5 is never applied. -/
theorem c2_no_boost_cex :
    (filter_tweets c2oracle [mkTweet ("1")] defaultConfig).map
        (fun ft => ft.relevance_score) = [8] ∧
    c2stats.reputation_boost defaultConfig = 1/2 ∧
    specBoostedScore c2stats defaultConfig 8 = 17/2 ∧
    ((17 : ℚ)/2 ≠ ((8 : Int) : ℚ)) := by
  have hb : c2stats.reputation_boost defaultConfig = 1/2 := by
    unfold AuthorStats.reputation_boost
    norm_num [c2stats, defaultConfig]
  refine ⟨by decide, hb, ?_, by norm_num⟩
  unfold specBoostedScore
  rw [hb]
  norm_num

/-- C2 amended: `filter_tweets` applies no reputation boost — every
returned result's final score is the dissent-adjusted judgment score, a
function of the judgment and the configuration alone; the boost formula
`min(boost_max, max(0, (avg − threshold) × 0.5))` (zero below minimum
samples or when untrusted) exists on `AuthorStats` but is not consulted by
the pipeline. -/
theorem c2_amended_boost_unused :
    (∀ (cfg : Config) (tweets : List Tweet) (rs : List (Except String (List JDict)))
        (ft : FilteredTweet), ft ∈ filterTweetsCore cfg tweets rs →
      ∃ s ∈ allScored tweets rs, processOne cfg s = some ft ∧
        ft.relevance_score = (adjustScore cfg s).1) ∧
    (∀ (stats : AuthorStats) (cfg : Config),
      stats.reputation_boost cfg =
        if stats.total_tweets_seen < cfg.reputation_minimum_samples ∨ ¬ stats.is_trusted
        then 0
        else min cfg.reputation_boost_max
          (max 0 ((stats.avg_score - cfg.reputation_trusted_threshold) * (1/2)))) := by
  constructor
  · intro cfg tweets rs ft hft
    unfold filterTweetsCore at hft
    rw [(List.perm_insertionSort scoreRel _).mem_iff, List.mem_filterMap] at hft
    obtain ⟨s, hs, hp⟩ := hft
    refine ⟨s, hs, hp, ?_⟩
    rw [(processOne_eq_some hp).2]
  · intro stats cfg
    unfold AuthorStats.reputation_boost
    by_cases h1 : stats.total_tweets_seen < cfg.reputation_minimum_samples
    · rw [if_pos h1, if_pos (Or.inl h1)]
    · by_cases h2 : stats.is_trusted
      · rw [if_neg h1, if_neg (fun hn => hn h2),
          if_neg (fun ho => ho.elim h1 (fun hn => hn h2))]
      · rw [if_neg h1, if_pos h2, if_pos (Or.inr h2)]

/-- Witness for C2 at a concrete run: the single returned result of score
8 arises from its judgment's dissent-adjusted score alone. -/
theorem c2_witness :
    ∃ s ∈ allScored [mkTweet ("1")] [Except.ok [jd ("1") 8]],
      processOne defaultConfig s = some ftScore8 ∧
        ftScore8.relevance_score = (adjustScore defaultConfig s).1 :=
  c2_amended_boost_unused.1 defaultConfig [mkTweet ("1")] [Except.ok [jd ("1") 8]]
    ftScore8 (by decide)

/-- C5: the pipeline never consults the exploration cooldown. Two
consecutive runs on the same unknown-author post both emit the "[NEW]"
prefix; a run returns the module-level cooldown cache unchanged for every
input; yet the cooldown helpers themselves do report a just-marked handle
as in cooldown. -/
theorem c5_exploration_cooldown_ignored :
    (filter_tweets_run [] c5oracle [mkTweet ("1")] defaultConfig).1.map
        (fun ft => ft.reason) = ["[NEW] r"] ∧
    ((filter_tweets_run (filter_tweets_run [] c5oracle [mkTweet ("1")] defaultConfig).2
        c5oracle [mkTweet ("1")] defaultConfig).1.map (fun ft => ft.reason) = ["[NEW] r"]) ∧
    (∀ (cache : List (String × ℚ)) (oracle : List Tweet → Except String (List JDict))
        (tweets : List Tweet) (cfg : Config),
      (filter_tweets_run cache oracle tweets cfg).2 = cache) ∧
    is_author_in_cooldown (mark_author_seen [] ("@x") 0) ("@x") 24 0 = true := by
  refine ⟨by decide, by decide, fun _ _ _ _ => rfl, ?_⟩
  have h48 : decide ((0 : ℚ) - 48 < (0 : ℚ)) = true := decide_eq_true (by norm_num)
  have hm : mark_author_seen [] ("@x") 0 = [(("@x" : String), (0 : ℚ))] := by
    simp [mark_author_seen, List.filter_cons, h48]
  rw [hm]
  have hl : cacheLookup [(("@x" : String), (0 : ℚ))] ("@x") = some 0 := rfl
  unfold is_author_in_cooldown
  rw [hl]
  exact decide_eq_true (by norm_num)

/-- C1 counterexample: for the two samples [10, 0] the source keeps
`max(1, int(2 * 0.8)) = 1` score, giving average 10, while the claimed
`ceil(0.8 × 2) = 2` would give 5. -/
theorem c1_ceil_cex :
    forgivingAverage [10, 0] = 10 ∧ forgivingAverageSpecCeil [10, 0] = 5 ∧
      ((10 : ℚ) ≠ 5) := by
  refine ⟨?_, ?_, by norm_num⟩
  · rw [forgivingAverage_eq]
    have h : (sortScoresDesc [10, 0]).take
        (keepCount ([10, 0] : List Int).length) = [10] := by decide
    rw [h]
    norm_num [List.sum_cons, List.sum_nil]
  · rw [forgivingAverageSpecCeil_eq]
    have h : (sortScoresDesc [10, 0]).take
        (keepCountSpecCeil ([10, 0] : List Int).length) = [10, 0] := by decide
    rw [h]
    norm_num [List.sum_cons, List.sum_nil]

/-- C1 amended: the forgiving average equals the mean of the top
`max(1, ⌊0.8 × N⌋)` samples (truncation, not ceiling) of any
descending-sorted arrangement of the samples; for N = 5 with scores
[9, 9, 8, 8, 2] it is exactly 8.5. -/
theorem c1_forgiving_average :
    (∀ (scores l2 : List Int), scores ≠ [] → scores.Perm l2 → l2.Sorted descRel →
      forgivingAverage scores =
        ((l2.take (keepCount scores.length)).sum : ℚ) /
          ((l2.take (keepCount scores.length)).length : ℚ)) ∧
    (∀ n : Nat, keepCount n = max 1 ((4 * n) / 5)) ∧
    forgivingAverage [9, 9, 8, 8, 2] = 17/2 := by
  refine ⟨?_, fun n => rfl, ?_⟩
  · intro scores l2 hne hp hs
    have hsort : sortScoresDesc scores = l2 :=
      List.eq_of_perm_of_sorted ((List.perm_insertionSort descRel scores).trans hp)
        (List.sorted_insertionSort descRel scores) hs
    rw [forgivingAverage_eq, hsort]
  · rw [forgivingAverage_eq]
    have h : (sortScoresDesc [9, 9, 8, 8, 2]).take
        (keepCount ([9, 9, 8, 8, 2] : List Int).length) = [9, 9, 8, 8] := by decide
    rw [h]
    norm_num [List.sum_cons, List.sum_nil]

/-- Witness for C1 at the already-sorted sample list [9, 9, 8, 8, 2]. -/
theorem c1_witness :
    forgivingAverage [9, 9, 8, 8, 2] =
      ((([9, 9, 8, 8, 2] : List Int).take
          (keepCount ([9, 9, 8, 8, 2] : List Int).length)).sum : ℚ) /
        ((([9, 9, 8, 8, 2] : List Int).take
          (keepCount ([9, 9, 8, 8, 2] : List Int).length)).length : ℚ) :=
  c1_forgiving_average.1 [9, 9, 8, 8, 2] [9, 9, 8, 8, 2] (by decide)
    (List.Perm.refl _) (by decide)

/-- C10 counterexample: author `a` with scores [9, 9, 8, 8, 2] satisfies
the trusted definition (forgiving average 8.5 ≥ 7.5, five samples), yet
`get_trusted_authors` returns the empty list because its SQL filter uses
the plain average 7.2 < 7.5. -/
theorem c10_plain_avg_cex :
    get_trusted_authors c10db 50 defaultConfig 0 = [] ∧
    (get_author_stats c10db ("a") defaultConfig 0).map
      (fun st => st.is_trusted) = some true := by
  constructor
  · have hm : plainMean c10db ("a") = 36/5 := by
      rw [plainMean_eq]
      have h : (samplesFor c10db ("a")).map (fun r => r.score) = [9, 9, 8, 8, 2] := by
        decide
      rw [h]
      norm_num [List.sum_cons, List.sum_nil]
    have hq : plainQualifies c10db defaultConfig
        ⟨"a", "A", 0, 0⟩ = false := by
      unfold plainQualifies
      apply decide_eq_false
      rintro ⟨h1, h2, h3⟩
      rw [show (⟨"a", "A", 0, 0⟩ : AuthorRow).handle = ("a" : String) from rfl, hm] at h3
      norm_num [defaultConfig] at h3
    unfold get_trusted_authors trustedAuthorRows
    rw [show c10db.authors.filter (plainQualifies c10db defaultConfig) = [] from by
      rw [show c10db.authors = [⟨"a", "A", 0, 0⟩] from rfl, List.filter_cons, hq]
      rfl]
    rfl
  · have hfind : c10db.authors.find?
        (fun a => a.handle = lowerStr ("a")) = some ⟨"a", "A", 0, 0⟩ := rfl
    have hne : ((samplesFor c10db (lowerStr ("a"))).map (fun r => r.score)).length ≠ 0 := by
      decide
    rw [get_author_stats_eq c10db ("a") defaultConfig 0 ⟨"a", "A", 0, 0⟩ hfind hne]
    have havg : forgivingAverage
        ((samplesFor c10db (lowerStr ("a"))).map (fun r => r.score)) = 17/2 := by
      have h : (samplesFor c10db (lowerStr ("a"))).map (fun r => r.score) =
          [9, 9, 8, 8, 2] := by decide
      rw [h, forgivingAverage_eq]
      have h2 : (sortScoresDesc [9, 9, 8, 8, 2]).take
          (keepCount ([9, 9, 8, 8, 2] : List Int).length) = [9, 9, 8, 8] := by decide
      rw [h2]
      norm_num [List.sum_cons, List.sum_nil]
    simp only [Option.map_some', Option.some.injEq]
    apply decide_eq_true
    refine ⟨by decide, ?_⟩
    rw [havg]
    norm_num [defaultConfig]

/-- C10 amended: `get_trusted_authors` returns exactly the authors passing
the SQL aggregate filter — at least `minimum_samples` samples AND plain
mean of all samples at least `trusted_threshold` — ordered by plain mean
descending (not by forgiving average) and truncated to `limit`, each
rendered through `get_author_stats`. -/
theorem c10_trusted_query :
    (∀ (db : AuthorDBModel) (cfg : Config) (limit : Nat) (now : ℚ) (s : AuthorStats),
      s ∈ get_trusted_authors db limit cfg now →
      ∃ a ∈ db.authors, plainQualifies db cfg a = true ∧
        get_author_stats db a.handle cfg now = some s) ∧
    (∀ (db : AuthorDBModel) (cfg : Config) (limit : Nat),
      (trustedAuthorRows db cfg limit).Sorted (meanRel db)) ∧
    (∀ (db : AuthorDBModel) (cfg : Config) (limit : Nat) (now : ℚ) (a : AuthorRow),
      (∀ r ∈ db.authors, lowerStr r.handle = r.handle) →
      (db.authors.filter (plainQualifies db cfg)).length ≤ limit →
      a ∈ db.authors → plainQualifies db cfg a = true →
      ∃ s ∈ get_trusted_authors db limit cfg now, s.handle = a.handle) := by
  refine ⟨?_, ?_, ?_⟩
  · intro db cfg limit now s hs
    unfold get_trusted_authors at hs
    rw [List.mem_filterMap] at hs
    obtain ⟨a, ha, hstats⟩ := hs
    unfold trustedAuthorRows at ha
    have ha2 := (List.take_sublist _ _).subset ha
    rw [(List.perm_insertionSort (meanRel db) _).mem_iff, List.mem_filter] at ha2
    exact ⟨a, ha2.1, ha2.2, hstats⟩
  · intro db cfg limit
    unfold trustedAuthorRows
    exact List.Pairwise.sublist (List.take_sublist _ _)
      (List.sorted_insertionSort (meanRel db) _)
  · intro db cfg limit now a hlower hlim hmem hq
    have hfs : (db.authors.find? (fun r => r.handle = lowerStr a.handle)).isSome = true := by
      rw [List.find?_isSome]
      exact ⟨a, hmem, decide_eq_true (hlower a hmem).symm⟩
    obtain ⟨author, hauthor⟩ := Option.isSome_iff_exists.mp hfs
    have hqP : (samplesFor db a.handle) ≠ [] ∧
        cfg.reputation_minimum_samples ≤ (samplesFor db a.handle).length ∧
        cfg.reputation_trusted_threshold ≤ plainMean db a.handle := by
      have hcopy := hq
      unfold plainQualifies at hcopy
      rwa [decide_eq_true_eq] at hcopy
    obtain ⟨hne0, hcnt, havg⟩ := hqP
    have hne : ((samplesFor db (lowerStr a.handle)).map (fun r => r.score)).length ≠ 0 := by
      rw [hlower a hmem, List.length_map]
      intro h0
      exact hne0 (List.length_eq_zero.mp h0)
    have hst := get_author_stats_eq db a.handle cfg now author hauthor hne
    obtain ⟨s, hs_eq⟩ : ∃ s, get_author_stats db a.handle cfg now = some s := ⟨_, hst⟩
    have hhandle : s.handle = a.handle := by
      have hcopy := hs_eq
      rw [hst] at hcopy
      injection hcopy with h2
      rw [← h2]
      exact hlower a hmem
    refine ⟨s, ?_, hhandle⟩
    unfold get_trusted_authors
    rw [List.mem_filterMap]
    refine ⟨a, ?_, hs_eq⟩
    unfold trustedAuthorRows
    have hlen : (List.insertionSort (meanRel db)
        (db.authors.filter (plainQualifies db cfg))).length ≤ limit := by
      rw [(List.perm_insertionSort (meanRel db) _).length_eq]
      exact hlim
    rw [List.take_of_length_le hlen,
      (List.perm_insertionSort (meanRel db) _).mem_iff, List.mem_filter]
    exact ⟨hmem, hq⟩

/-- Witness for C10: the completeness clause at a store with one author of
five samples of 8 (plain mean 8 ≥ 7.5). -/
theorem c10_witness :
    ∃ s ∈ get_trusted_authors c10wdb 50 defaultConfig 0, s.handle = "a" := by
  have hq : plainQualifies c10wdb defaultConfig ⟨"a", "A", 0, 0⟩ = true := by
    apply decide_eq_true
    refine ⟨by decide, by decide, ?_⟩
    have hm : plainMean c10wdb (AuthorRow.handle ⟨"a", "A", 0, 0⟩) = 8 := by
      rw [plainMean_eq]
      have h : (samplesFor c10wdb (AuthorRow.handle ⟨"a", "A", 0, 0⟩)).map
          (fun r => r.score) = [8, 8, 8, 8, 8] := by decide
      rw [h]
      norm_num [List.sum_cons, List.sum_nil]
    rw [hm]
    norm_num [defaultConfig]
  exact c10_trusted_query.2.2 c10wdb defaultConfig 50 0 ⟨"a", "A", 0, 0⟩
    (by decide)
    (le_trans (List.length_filter_le _ _) (by decide))
    (by decide) hq
